import Mathlib

/-!
Verification development for the Functional Genomics Browser (`app.py`).

The app is a Streamlit page over pandas DataFrames.  We embed the parts the
specification talks about: the DataFrame data model, the Browse-page filter
chain (chromosome, position range, ScoreChange range, clinical significance,
transcription factor, external-link presence, dbSNP search), the Analysis-page
cross-dataset summary loop, and the CSV export / reload round trip.

Machine reals (float64) are modelled as exact rationals; pandas missing values
(NaN) are an explicit `null` constructor, and operations that would raise a
Python exception return `Except.error`.
-/

set_option maxHeartbeats 1000000

namespace EnhancerDB

/-- A scalar cell of a pandas DataFrame: a string, a number (float64/int64
modelled as an exact rational), or a missing value (NaN). -/
inductive Value where
  | str : String → Value
  | num : ℚ → Value
  | null : Value
deriving DecidableEq

abbrev Row := List Value

/-- A pandas DataFrame: an ordered schema of column names together with the
rows, each row listing its cells in column order. -/
structure DataFrame where
  cols : List String
  rows : List Row
deriving DecidableEq

/-- The cell of a row at column index `i`; out-of-range positions read as
missing, which never happens on well-formed frames. -/
def cellAt (i : Nat) (r : Row) : Value := r.getD i Value.null

/-- Index of a name in a schema list, leftmost first. -/
def colIdxAux (c : String) : List String → Option Nat
  | [] => none
  | a :: t => if a = c then some 0 else (colIdxAux c t).map (· + 1)

/-- Position of a column name in the schema (pandas column lookup). -/
def colIdx? (df : DataFrame) (c : String) : Option Nat := colIdxAux c df.cols

/-- The series of a named column in row order (empty when the column is
absent from the schema). -/
def colVals (df : DataFrame) (c : String) : List Value :=
  match colIdx? df c with
  | none => []
  | some i => df.rows.map (cellAt i)

def numOf : Value → Option ℚ
  | Value.num q => some q
  | _ => none

/-- The cell holds an integer-valued number (an int64 position column). -/
def isIntNum : Value → Bool
  | Value.num q => q.den == 1
  | _ => false

/-- The non-missing numeric entries of a column, as pandas skipna
aggregations see them. -/
def colNums (df : DataFrame) (c : String) : List ℚ := (colVals df c).filterMap numOf

/-- `Series.min()`: `none` models the NaN produced on an all-missing series. -/
def qMin? : List ℚ → Option ℚ
  | [] => none
  | a :: as => some (as.foldl min a)

/-- `Series.max()`: `none` models the NaN produced on an all-missing series. -/
def qMax? : List ℚ → Option ℚ
  | [] => none
  | a :: as => some (as.foldl max a)

/-- `Series.mean()` with skipna: NaN (`none`) on an empty series, otherwise
the exact average. -/
def qMean? (l : List ℚ) : Option ℚ :=
  if l.isEmpty then none else some (l.sum / l.length)

/-- Python `int()` on a real number: truncation toward zero. -/
def pyInt (q : ℚ) : Int := if 0 ≤ q then ⌊q⌋ else ⌈q⌉

/-- `str()` as applied by `astype(str)` in the chromosome filter. -/
def valueToStr : Value → String
  | Value.str s => s
  | Value.num q => if q.den = 1 then toString q.num else toString q
  | Value.null => "nan"

/-! ### The dbSNP search matcher

`app.py` line 233 uses `Series.str.contains(search_term, case=False,
na=False)`, whose default is regular-expression search (`re.search`), not a
literal substring test.  `reMatchAt`/`reSearch` model `re.search` restricted
to the fragment of patterns built from literal characters and the `.`
metacharacter; only on that fragment do they agree with Python's matcher.
A term containing any other regex metacharacter (`*`, `+`, `?`, `(`, `[`,
`|`, ...) is treated here as literal characters, whereas Python gives it
regex-operator semantics or raises `re.error` on an invalid pattern — such
terms are outside the model, and no theorem below quantifies over them:
general statements are restricted to metacharacter-free terms
(`isRegexMeta` everywhere false), where the two matchers coincide. -/

/-- A Python regular-expression metacharacter.  Terms containing one of
these (other than the modelled `.`) fall outside `reSearch`'s fragment. -/
def isRegexMeta (c : Char) : Bool :=
  c == '.' || c == '^' || c == '$' || c == '*' || c == '+' || c == '?' ||
    c == '(' || c == ')' || c == '[' || c == ']' || c == '\x7b' ||
    c == '\x7d' || c == '|' || c == '\\'

/-- Match a pattern of the literal-plus-dot fragment against a prefix of
the text. -/
def reMatchAt : List Char → List Char → Bool
  | [], _ => true
  | _ :: _, [] => false
  | p :: ps, c :: cs => (p == '.' || p == c) && reMatchAt ps cs

/-- `re.search` on the literal-plus-dot fragment: the pattern matches at
some offset. -/
def reSearch (pat : List Char) : List Char → Bool
  | [] => reMatchAt pat []
  | c :: cs => reMatchAt pat (c :: cs) || reSearch pat cs

/-- ASCII lowercasing of a character list, modelling the case folding of
`case=False` (re.IGNORECASE) on this dataset's ASCII identifiers. -/
def lowerList (l : List Char) : List Char := l.map Char.toLower

/-- The cell test performed by `str.contains(term, case=False, na=False)` on
a string cell — faithful only for terms inside the literal-plus-dot
fragment; see the section comment for the terms it does not model. -/
def searchPass (term s : String) : Bool :=
  reSearch (lowerList term.toList) (lowerList s.toList)

/-- Modelled from the spec: the "substring filter" as the spec words it — a
case-insensitive literal containment test.  Used only to compare the spec's
semantics against the code's regex-based test. -/
def occursIn (pat : List Char) : List Char → Bool
  | [] => pat.isEmpty
  | c :: cs => pat.isPrefixOf (c :: cs) || occursIn pat cs

/-- Modelled from the spec: case-insensitive substring containment on
strings. -/
def substrContainsCI (pat s : String) : Bool :=
  occursIn (lowerList pat.toList) (lowerList s.toList)

/-! ### The Browse-page filter chain (`app.py` lines 157–234) -/

inductive ClinChoice where
  | all | yesOnly | noOnly
deriving DecidableEq

/-- The state of the Browse-page filter widgets.  `scoreRange` bounds are
`Option ℚ` because the slider default is `float(min)`/`float(max)` of the
column, which is NaN (`none`) on an all-missing column. -/
structure FilterState where
  chromosome : String
  posRange : Int × Int
  scoreRange : Option ℚ × Option ℚ
  clinFilter : ClinChoice
  tf : String
  gwasCheck : Bool
  clinvarCheck : Bool
  eqtlCheck : Bool
  searchTerm : String
deriving DecidableEq

/-- `value >= bound` on a cell, with a pandas NaN comparison yielding False;
integer bound from the position slider. -/
def geIntB (v : Value) (b : Int) : Bool :=
  match v with
  | Value.num q => decide ((b : ℚ) ≤ q)
  | _ => false

/-- `value <= bound` on a cell, with a pandas NaN comparison yielding False;
integer bound from the position slider. -/
def leIntB (v : Value) (b : Int) : Bool :=
  match v with
  | Value.num q => decide (q ≤ (b : ℚ))
  | _ => false

/-- The position-range row test of lines 177–180:
`variant_start >= pos_range[0]` and `variant_end <= pos_range[1]` — interval
containment, not overlap. -/
def posPass (lo hi : Int) (sv ev : Value) : Bool := geIntB sv lo && leIntB ev hi

/-- `value >= bound` against a score-slider bound (NaN bound or NaN cell
compares False). -/
def geOptB (v : Value) (b : Option ℚ) : Bool :=
  match v, b with
  | Value.num q, some l => decide (l ≤ q)
  | _, _ => false

/-- `value <= bound` against a score-slider bound (NaN bound or NaN cell
compares False). -/
def leOptB (v : Value) (b : Option ℚ) : Bool :=
  match v, b with
  | Value.num q, some h => decide (q ≤ h)
  | _, _ => false

/-- The seven filter blocks of the Browse page, in source order. -/
inductive FilterStep where
  | chrStep | posStep | scoreStep | clinStep | tfStep | linksStep | searchStep
deriving DecidableEq

/-- The row predicate contributed by one filter block, or the Python
exception the block raises.  Each block is guarded by the presence of one
column in `current_data.columns` exactly as in the source; the position block
additionally evaluates `int(current_data['variant_start'].min())` and
`int(current_data['variant_end'].max())` for the slider, raising ValueError
on NaN (lines 167–168) and KeyError when `variant_end` is absent; the
ClinVar/eQTL checkboxes access `clinvar_url`/`eqtl_url` unguarded
(lines 223–226). -/
def stepPred (df : DataFrame) (fs : FilterState) : FilterStep → Except String (Row → Bool)
  | FilterStep.chrStep =>
    match colIdx? df "chr" with
    | none => Except.ok fun _ => true
    | some i =>
      if fs.chromosome = "All" then Except.ok fun _ => true
      else Except.ok fun r => valueToStr (cellAt i r) == fs.chromosome
  | FilterStep.posStep =>
    match colIdx? df "variant_start" with
    | none => Except.ok fun _ => true
    | some i =>
      match qMin? (colNums df "variant_start") with
      | none => Except.error "ValueError: cannot convert float NaN to integer"
      | some _ =>
        match colIdx? df "variant_end" with
        | none => Except.error "KeyError: variant_end"
        | some j =>
          match qMax? (colNums df "variant_end") with
          | none => Except.error "ValueError: cannot convert float NaN to integer"
          | some _ =>
            Except.ok fun r =>
              posPass fs.posRange.1 fs.posRange.2 (cellAt i r) (cellAt j r)
  | FilterStep.scoreStep =>
    match colIdx? df "ScoreChange" with
    | none => Except.ok fun _ => true
    | some i =>
      Except.ok fun r =>
        geOptB (cellAt i r) fs.scoreRange.1 && leOptB (cellAt i r) fs.scoreRange.2
  | FilterStep.clinStep =>
    match colIdx? df "is_clinically_significant" with
    | none => Except.ok fun _ => true
    | some i =>
      match fs.clinFilter with
      | ClinChoice.all => Except.ok fun _ => true
      | ClinChoice.yesOnly => Except.ok fun r => cellAt i r == Value.str "yes"
      | ClinChoice.noOnly => Except.ok fun r => cellAt i r == Value.str "no"
  | FilterStep.tfStep =>
    match colIdx? df "transcription_factor" with
    | none => Except.ok fun _ => true
    | some i =>
      if fs.tf = "All" then Except.ok fun _ => true
      else Except.ok fun r => cellAt i r == Value.str fs.tf
  | FilterStep.linksStep =>
    match colIdx? df "gwas_url" with
    | none => Except.ok fun _ => true
    | some ig =>
      let pG : Row → Bool := fun r => !fs.gwasCheck || !(cellAt ig r == Value.str "-")
      if fs.clinvarCheck then
        match colIdx? df "clinvar_url" with
        | none => Except.error "KeyError: clinvar_url"
        | some ic =>
          if fs.eqtlCheck then
            match colIdx? df "eqtl_url" with
            | none => Except.error "KeyError: eqtl_url"
            | some ie =>
              Except.ok fun r =>
                pG r && !(cellAt ic r == Value.str "-") && !(cellAt ie r == Value.str "-")
          else
            Except.ok fun r => pG r && !(cellAt ic r == Value.str "-")
      else
        if fs.eqtlCheck then
          match colIdx? df "eqtl_url" with
          | none => Except.error "KeyError: eqtl_url"
          | some ie =>
            Except.ok fun r => pG r && !(cellAt ie r == Value.str "-")
        else Except.ok pG
  | FilterStep.searchStep =>
    match colIdx? df "dbsnp_id" with
    | none => Except.ok fun _ => true
    | some i =>
      if fs.searchTerm = "" then Except.ok fun _ => true
      else
        Except.ok fun r =>
          match cellAt i r with
          | Value.str s => searchPass fs.searchTerm s
          | _ => false

instance {ε α : Type} [DecidableEq ε] [DecidableEq α] : DecidableEq (Except ε α) := fun a b =>
  match a, b with
  | Except.ok x, Except.ok y =>
    if h : x = y then Decidable.isTrue (by rw [h])
    else Decidable.isFalse (by intro hh; exact h (Except.ok.inj hh))
  | Except.ok _, Except.error _ => Decidable.isFalse (by intro hh; cases hh)
  | Except.error _, Except.ok _ => Decidable.isFalse (by intro hh; cases hh)
  | Except.error e, Except.error f =>
    if h : e = f then Decidable.isTrue (by rw [h])
    else Decidable.isFalse (by intro hh; exact h (Except.error.inj hh))

/-- Run one filter block over the accumulated `filtered_data` rows. -/
def runStep (df : DataFrame) (fs : FilterState) (cur : List Row) (s : FilterStep) :
    Except String (List Row) :=
  match stepPred df fs s with
  | Except.error e => Except.error e
  | Except.ok p => Except.ok (cur.filter p)

/-- Run a sequence of filter blocks, stopping at the first raised
exception. -/
def runSteps (df : DataFrame) (fs : FilterState) (cur : List Row) :
    List FilterStep → Except String (List Row)
  | [] => Except.ok cur
  | s :: rest =>
    match runStep df fs cur s with
    | Except.error e => Except.error e
    | Except.ok cur2 => runSteps df fs cur2 rest

/-- The filter blocks in the order they appear on the Browse page. -/
def allSteps : List FilterStep :=
  [FilterStep.chrStep, FilterStep.posStep, FilterStep.scoreStep, FilterStep.clinStep,
   FilterStep.tfStep, FilterStep.linksStep, FilterStep.searchStep]

/-- The whole Browse-page filter chain: `filtered_data` starts as a copy of
the dataset and each block narrows it. -/
def browseFilter (df : DataFrame) (fs : FilterState) : Except String (List Row) :=
  runSteps df fs df.rows allSteps

/-- The default position-slider selection
`(int(variant_start.min()), int(variant_end.max()))`; the fallback pair is
never consulted because the position block raises before filtering when the
minima are unavailable. -/
def defaultPosRange (df : DataFrame) : Int × Int :=
  match qMin? (colNums df "variant_start"), qMax? (colNums df "variant_end") with
  | some m, some M => (pyInt m, pyInt M)
  | _, _ => (0, 0)

/-- The widget state with every filter unset: chromosome and TF selectors on
"All", sliders at their computed full default bounds, radio on "All",
checkboxes off, empty search box. -/
def defaultFS (df : DataFrame) : FilterState where
  chromosome := "All"
  posRange := defaultPosRange df
  scoreRange := (qMin? (colNums df "ScoreChange"), qMax? (colNums df "ScoreChange"))
  clinFilter := ClinChoice.all
  tf := "All"
  gwasCheck := false
  clinvarCheck := false
  eqtlCheck := false
  searchTerm := ""

/-- The column whose presence in `current_data.columns` guards each filter
block in the source. -/
def guardCol : FilterStep → String
  | FilterStep.chrStep => "chr"
  | FilterStep.posStep => "variant_start"
  | FilterStep.scoreStep => "ScoreChange"
  | FilterStep.clinStep => "is_clinically_significant"
  | FilterStep.tfStep => "transcription_factor"
  | FilterStep.linksStep => "gwas_url"
  | FilterStep.searchStep => "dbsnp_id"

/-- The session dataset store (`st.session_state.datasets`). -/
abbrev Store := List (String × DataFrame)

/-- One Browse-page interaction: read the selected dataset from the session
store (line 117 takes a copy), run the filter chain, and return the filtered
rows together with the store as the interaction leaves it.  No filter
statement assigns into `st.session_state`. -/
def browsePage (store : Store) (name : String) (fs : FilterState) :
    Except String (List Row) × Store :=
  match store.lookup name with
  | none => (Except.error "KeyError: dataset", store)
  | some df => (browseFilter df fs, store)

/-! ### The Analysis-page cross-dataset summary (`app.py` lines 393–411) -/

/-- A cell of the comparison table as the summary loop builds it.  `fmtMean`
and `fmtRange` carry the value being interpolated into
`f"\x7bdf['ScoreChange'].mean():.3f\x7d"` and
`f"\x7bmin:.3f\x7d to \x7bmax:.3f\x7d"`; the `none` payload is pandas NaN,
which the formatting renders as the string "nan". -/
inductive Cell where
  | strC : String → Cell
  | natC : Nat → Cell
  | fmtMean : Option ℚ → Cell
  | fmtRange : Option ℚ → Option ℚ → Cell
deriving DecidableEq

/-- `Series.nunique()`: number of distinct non-missing values. -/
def nuniqueCol (df : DataFrame) (c : String) : Nat :=
  ((colVals df c).filter (· != Value.null)).dedup.length

/-- One iteration of the `summary_data` loop: the dict built for one dataset,
as an ordered key/cell list.  Keys `Avg Score Change`, `Score Range` and
`Clinical Sig` are only inserted when their column exists; `Chromosomes`
falls back to the literal string "N/A". -/
def summaryRow (name : String) (df : DataFrame) : List (String × Cell) :=
  [("Dataset", Cell.strC name),
   ("Total Variants", Cell.natC df.rows.length),
   ("Chromosomes",
     if "chr" ∈ df.cols then Cell.natC (nuniqueCol df "chr") else Cell.strC "N/A")]
  ++ (if "ScoreChange" ∈ df.cols then
        [("Avg Score Change", Cell.fmtMean (qMean? (colNums df "ScoreChange"))),
         ("Score Range",
           Cell.fmtRange (qMin? (colNums df "ScoreChange")) (qMax? (colNums df "ScoreChange")))]
      else [])
  ++ (if "is_clinically_significant" ∈ df.cols then
        [("Clinical Sig",
          Cell.natC ((colVals df "is_clinically_significant").filter
            (· == Value.str "yes")).length)]
      else [])

/-- The whole `summary_data` list: one dict per dataset, in store order. -/
def summaryRows (ds : Store) : List (List (String × Cell)) :=
  ds.map fun p => summaryRow p.1 p.2

/-! ### CSV export (`to_csv(index=False)`, line 245) and reload (`read_csv`,
lines 57–60)

The file text is modelled as a character list.  `to_csv` writes the header
line and one line per row, each terminated by a newline, fields separated by
commas and minimally quoted.  `read_csv` splits lines (skipping blank lines),
takes the first as the header, and type-infers every data field: empty fields
and NA tokens become missing, integer- and decimal-shaped fields become
numbers, everything else stays a string. -/

/-- Characters that force quoting in `to_csv` and break naive splitting. -/
def isCsvSpecial (c : Char) : Bool :=
  c == ',' || c == '"' || c == '\n' || c == '\r'

/-- Decimal digits of a natural number (fuel-indexed helper). -/
def digitsAux : Nat → Nat → List Char
  | 0, _ => []
  | _ + 1, 0 => []
  | fuel + 1, n => digitsAux fuel (n / 10) ++ [Char.ofNat (48 + n % 10)]

/-- Decimal digits of a natural number, most significant first. -/
def digitsOfNat (n : Nat) : List Char :=
  if n = 0 then ['0'] else digitsAux (n + 1) n

/-- Decimal rendering of an integer. -/
def renderInt (n : Int) : List Char :=
  if n < 0 then '-' :: digitsOfNat n.natAbs else digitsOfNat n.natAbs

/-- Smallest power of ten clearing the denominator, when the rational has a
finite decimal expansion (float64 values always do): the least k with
q.den dividing 10^k. -/
def decExp? (q : ℚ) : Option Nat :=
  (List.range 65).find? fun k => 10 ^ k % q.den == 0

/-- The float-repr rendering `to_csv` uses for a number with a finite decimal
expansion (`none` for rationals no float64 can hold). -/
def renderQ? (q : ℚ) : Option (List Char) :=
  match decExp? q with
  | none => none
  | some 0 => some (renderInt q.num)
  | some (k + 1) =>
    let scaled : Int := q.num * Int.ofNat (10 ^ (k + 1) / q.den)
    let ds := digitsOfNat scaled.natAbs
    let ds := if ds.length ≤ k + 1 then List.replicate (k + 2 - ds.length) '0' ++ ds else ds
    some ((if scaled < 0 then ['-'] else []) ++
      ds.take (ds.length - (k + 1)) ++ '.' :: ds.drop (ds.length - (k + 1)))

/-- Double an embedded quote, as the csv writer escapes it. -/
def escapeQ : List Char → List Char
  | [] => []
  | '"' :: t => '"' :: '"' :: escapeQ t
  | c :: t => c :: escapeQ t

/-- One field as `to_csv` writes it: NaN as the empty field, numbers by
their repr, strings minimally quoted. -/
def renderFieldC : Value → Option (List Char)
  | Value.null => some []
  | Value.num q => renderQ? q
  | Value.str s =>
    if s.toList.any isCsvSpecial then some ('"' :: escapeQ s.toList ++ ['"'])
    else some s.toList

/-- Join pieces with a separator character. -/
def joinWith (c : Char) : List (List Char) → List Char
  | [] => []
  | [l] => l
  | l :: ls => l ++ c :: joinWith c ls

/-- Render every field of a row, failing if any field fails. -/
def renderFields : Row → Option (List (List Char))
  | [] => some []
  | v :: t =>
    match renderFieldC v, renderFields t with
    | some f, some fs => some (f :: fs)
    | _, _ => none

/-- One data line of the export. -/
def renderRowC (r : Row) : Option (List Char) :=
  (renderFields r).map (joinWith ',')

/-- Render every data line of the export. -/
def renderLines : List Row → Option (List (List Char))
  | [] => some []
  | r :: t =>
    match renderRowC r, renderLines t with
    | some l, some ls => some (l :: ls)
    | _, _ => none

/-- The header line of the export. -/
def headerLineC (df : DataFrame) : List Char :=
  joinWith ',' (df.cols.map String.toList)

/-- `filtered_data.to_csv(index=False)`: header line then one line per row,
every line newline-terminated.  `none` only for values outside the float64
decimal model. -/
def toCsvText (df : DataFrame) : Option (List Char) :=
  (renderLines df.rows).map fun lns =>
    joinWith '\n' (headerLineC df :: lns) ++ ['\n']

/-- Split a character list on a separator (text splitting, no quote
awareness; the round-trip hypotheses keep separators out of fields). -/
def splitOnC (c : Char) : List Char → List (List Char)
  | [] => [[]]
  | a :: rest =>
    if a = c then [] :: splitOnC c rest
    else
      match splitOnC c rest with
      | [] => [[a]]
      | g :: gs => (a :: g) :: gs

/-- The default `na_values` tokens of `read_csv`. -/
def naTokens : List String :=
  ["#N/A", "#N/A N/A", "#NA", "-1.#IND", "-1.#QNAN", "-NaN", "-nan",
   "1.#IND", "1.#QNAN", "<NA>", "N/A", "NA", "NULL", "NaN", "None",
   "n/a", "nan", "null"]

def isDigitStr (l : List Char) : Bool := !l.isEmpty && l.all (·.isDigit)

def digitsToNat (l : List Char) : Nat :=
  l.foldl (fun a c => a * 10 + (c.toNat - 48)) 0

/-- An integer from a sign flag and a magnitude. -/
def signedInt (neg : Bool) (n : Nat) : Int :=
  if neg then Int.negOfNat n else Int.ofNat n

/-- Numeric type inference of `read_csv` on one field: an optional sign, then
either all digits (int64) or a decimal-point form (float64). -/
def parseNum? (l : List Char) : Option ℚ :=
  let signed : Bool × List Char :=
    match l with
    | '-' :: t => (true, t)
    | '+' :: t => (false, t)
    | _ => (false, l)
  let body := signed.2
  match splitOnC '.' body with
  | [a] =>
    if isDigitStr a then some (mkRat (signedInt signed.1 (digitsToNat a)) 1) else none
  | [a, b] =>
    if (isDigitStr a || a.isEmpty) && (isDigitStr b || b.isEmpty) &&
        !(a.isEmpty && b.isEmpty) then
      some (mkRat (signedInt signed.1 (digitsToNat a * 10 ^ b.length + digitsToNat b))
        (10 ^ b.length))
    else none
  | _ => none

/-- Strip one matching pair of surrounding quotes and undouble inner quotes. -/
def unescapeQ : List Char → List Char
  | '"' :: '"' :: t => '"' :: unescapeQ t
  | c :: t => c :: unescapeQ t
  | [] => []

/-- One field as `read_csv` reads it back: unquote, then map empty/NA tokens
to missing, numeric shapes to numbers, the rest to strings. -/
def parseFieldC (l : List Char) : Value :=
  let l :=
    match l with
    | '"' :: (t₁ :: t₂) =>
      if (t₁ :: t₂).getLast (by simp) = '"' then unescapeQ ((t₁ :: t₂).dropLast) else l
    | _ => l
  if l.isEmpty then Value.null
  else
    match parseNum? l with
    | some q => Value.num q
    | none =>
      if naTokens.any (fun t => t.toList == l) then Value.null
      else Value.str (String.mk l)

/-- `read_csv` on the exported text: split into lines, drop blank lines,
header first, then type-infer each comma-separated field of each data
line.  `none` models EmptyDataError. -/
def fromCsvText (text : List Char) : Option DataFrame :=
  match (splitOnC '\n' text).filter (· ≠ []) with
  | [] => none
  | header :: dataLines =>
    some
      { cols := (splitOnC ',' header).map String.mk
        rows := dataLines.map fun ln => (splitOnC ',' ln).map parseFieldC }

/-- A cell survives export and reload verbatim: it renders, its rendering
contains no separator or quote, and inference maps it back to itself. -/
def cellSafe (v : Value) : Bool :=
  match renderFieldC v with
  | none => false
  | some l => !l.any isCsvSpecial && decide (parseFieldC l = v)

/-- A column name survives export and reload: nonempty and free of
separators and quotes. -/
def headerSafe (c : String) : Bool :=
  !c.toList.isEmpty && !c.toList.any isCsvSpecial

/-! ### Concrete test fixtures -/

/-- Widget state with every filter unset; slider fields hold inert values
that only matter when the corresponding column exists. -/
def unsetFS : FilterState where
  chromosome := "All"
  posRange := (0, 0)
  scoreRange := (none, none)
  clinFilter := ClinChoice.all
  tf := "All"
  gwasCheck := false
  clinvarCheck := false
  eqtlCheck := false
  searchTerm := ""

/-- Three-row dataset with chromosome values chr1, chr2, chr1. -/
def chrExampleDf : DataFrame where
  cols := ["chr", "id"]
  rows := [[Value.str "chr1", Value.str "r1"],
           [Value.str "chr2", Value.str "r2"],
           [Value.str "chr1", Value.str "r3"]]

/-- Dataset with both position columns and the single row (100, 200). -/
def posExampleDf : DataFrame where
  cols := ["variant_start", "variant_end"]
  rows := [[Value.num 100, Value.num 200]]

/-- Dataset carrying `gwas_url` but no `clinvar_url`. -/
def gwasOnlyDf : DataFrame where
  cols := ["gwas_url"]
  rows := [[Value.str "x"]]

/-- Dataset carrying `variant_start` but no `variant_end`. -/
def startOnlyDf : DataFrame where
  cols := ["variant_start"]
  rows := [[Value.num 5]]

/-- Dataset whose `ScoreChange` column exists but has zero rows. -/
def emptyScoreDf : DataFrame where
  cols := ["ScoreChange"]
  rows := []

/-- Dataset with a `chr` column but no `ScoreChange` column. -/
def chrOnlyDf : DataFrame where
  cols := ["chr"]
  rows := [[Value.str "chr1"]]

/-- Dataset with one numeric and one missing `ScoreChange` value. -/
def nullScoreDf : DataFrame where
  cols := ["ScoreChange"]
  rows := [[Value.num 1], [Value.null]]

/-- Dataset satisfying every hypothesis of the default-state identity. -/
def cleanDf : DataFrame where
  cols := ["chr", "variant_start", "variant_end", "ScoreChange"]
  rows := [[Value.str "chr1", Value.num 100, Value.num 200, Value.num 2],
           [Value.str "chr2", Value.num 150, Value.num 250, Value.num (-3)]]

/-- Dataset for the dbSNP search: a matching string, a missing value, and a
numeric value. -/
def dbsnpDf : DataFrame where
  cols := ["dbsnp_id"]
  rows := [[Value.str "rs123456"], [Value.null], [Value.num 5]]

/-- Dataset whose only cell is the numeric-looking string "7". -/
def strSevenDf : DataFrame where
  cols := ["c"]
  rows := [[Value.str "7"]]

/-- Dataset exercising the chromosome and score filters together. -/
def permExampleDf : DataFrame where
  cols := ["chr", "ScoreChange"]
  rows := [[Value.str "chr1", Value.num 1],
           [Value.str "chr2", Value.num 5],
           [Value.str "chr1", Value.num 10]]

/-- Filter state selecting chromosome chr1 and score range 0 to 6. -/
def permExampleFS : FilterState :=
  { unsetFS with chromosome := "chr1", scoreRange := (some 0, some 6) }

/-- A one-dataset session store. -/
def exampleStore : Store := [("Enhancer GOF", chrExampleDf)]

/-- A dataset of realistic shape whose export round-trips. -/
def roundTripDf : DataFrame where
  cols := ["chr", "ScoreChange", "gwas_url"]
  rows := [[Value.str "chr1", Value.num (mkRat 345 1000), Value.str "-"],
           [Value.str "chr2", Value.num (mkRat (-25) 10), Value.null],
           [Value.str "chrX", Value.num 17, Value.str "http://x"]]

/-! ### Helper lemmas: column lookup -/

theorem colIdxAux_eq_none {c : String} {l : List String} (h : c ∉ l) :
    colIdxAux c l = none := by
  induction l with
  | nil => rfl
  | cons a t ih =>
    rw [List.mem_cons, not_or] at h
    have ha : ¬(a = c) := fun hh => h.1 hh.symm
    simp [colIdxAux, ha, ih h.2]

theorem colIdxAux_mem {c : String} {l : List String} (h : c ∈ l) :
    ∃ i, colIdxAux c l = some i := by
  induction l with
  | nil => cases h
  | cons a t ih =>
    by_cases hac : a = c
    · exact ⟨0, by simp [colIdxAux, hac]⟩
    · have ht : c ∈ t := by
        rcases List.mem_cons.mp h with rfl | hx
        · exact absurd rfl hac
        · exact hx
      obtain ⟨i, hi⟩ := ih ht
      exact ⟨i + 1, by simp [colIdxAux, hac, hi]⟩

theorem mem_of_colIdxAux_some {c : String} {l : List String} {i : Nat}
    (h : colIdxAux c l = some i) : c ∈ l := by
  induction l generalizing i with
  | nil => simp [colIdxAux] at h
  | cons a t ih =>
    by_cases hac : a = c
    · exact hac ▸ List.mem_cons_self a t
    · simp only [colIdxAux, if_neg hac, Option.map_eq_some'] at h
      obtain ⟨j, hj, _⟩ := h
      exact List.mem_cons_of_mem a (ih hj)

theorem colIdx?_eq_none {df : DataFrame} {c : String} (h : c ∉ df.cols) :
    colIdx? df c = none := colIdxAux_eq_none h

theorem colIdx?_mem {df : DataFrame} {c : String} (h : c ∈ df.cols) :
    ∃ i, colIdx? df c = some i := colIdxAux_mem h

theorem mem_of_colIdx?_some {df : DataFrame} {c : String} {i : Nat}
    (h : colIdx? df c = some i) : c ∈ df.cols := mem_of_colIdxAux_some h

theorem colVals_of_some {df : DataFrame} {c : String} {i : Nat}
    (h : colIdx? df c = some i) : colVals df c = df.rows.map (cellAt i) := by
  rw [colVals, h]

/-! ### Helper lemmas: series minima and maxima -/

theorem foldl_min_le_init (as : List ℚ) (a : ℚ) : as.foldl min a ≤ a := by
  induction as generalizing a with
  | nil => exact le_refl a
  | cons b t ih => exact le_trans (ih (min a b)) (min_le_left a b)

theorem foldl_min_le_mem {x : ℚ} {as : List ℚ} (a : ℚ) (h : x ∈ as) :
    as.foldl min a ≤ x := by
  induction as generalizing a with
  | nil => cases h
  | cons b t ih =>
    rcases List.mem_cons.mp h with rfl | hx
    · exact le_trans (foldl_min_le_init t (min a x)) (min_le_right a x)
    · exact ih (min a b) hx

theorem foldl_min_mem (as : List ℚ) (a : ℚ) :
    as.foldl min a = a ∨ as.foldl min a ∈ as := by
  induction as generalizing a with
  | nil => exact Or.inl rfl
  | cons b t ih =>
    rcases ih (min a b) with h | h
    · rcases min_choice a b with hm | hm
      · exact Or.inl (by rw [List.foldl_cons, h, hm])
      · exact Or.inr (by rw [List.foldl_cons, h, hm]; exact List.mem_cons_self b t)
    · exact Or.inr (List.mem_cons_of_mem b h)

theorem qMin?_le {l : List ℚ} {m x : ℚ} (hm : qMin? l = some m) (hx : x ∈ l) :
    m ≤ x := by
  cases l with
  | nil => simp [qMin?] at hm
  | cons a t =>
    obtain rfl : t.foldl min a = m := Option.some.inj hm
    rcases List.mem_cons.mp hx with rfl | hx
    · exact foldl_min_le_init t x
    · exact foldl_min_le_mem a hx

theorem qMin?_mem {l : List ℚ} {m : ℚ} (hm : qMin? l = some m) : m ∈ l := by
  cases l with
  | nil => simp [qMin?] at hm
  | cons a t =>
    obtain rfl : t.foldl min a = m := Option.some.inj hm
    rcases foldl_min_mem t a with h | h
    · rw [h]; exact List.mem_cons_self a t
    · exact List.mem_cons_of_mem a h

theorem qMin?_of_ne_nil {l : List ℚ} (h : l ≠ []) : ∃ m, qMin? l = some m := by
  cases l with
  | nil => exact absurd rfl h
  | cons a t => exact ⟨t.foldl min a, rfl⟩

theorem foldl_max_init_le (as : List ℚ) (a : ℚ) : a ≤ as.foldl max a := by
  induction as generalizing a with
  | nil => exact le_refl a
  | cons b t ih => exact le_trans (le_max_left a b) (ih (max a b))

theorem foldl_max_mem_le {x : ℚ} {as : List ℚ} (a : ℚ) (h : x ∈ as) :
    x ≤ as.foldl max a := by
  induction as generalizing a with
  | nil => cases h
  | cons b t ih =>
    rcases List.mem_cons.mp h with rfl | hx
    · exact le_trans (le_max_right a x) (foldl_max_init_le t (max a x))
    · exact ih (max a b) hx

theorem foldl_max_mem (as : List ℚ) (a : ℚ) :
    as.foldl max a = a ∨ as.foldl max a ∈ as := by
  induction as generalizing a with
  | nil => exact Or.inl rfl
  | cons b t ih =>
    rcases ih (max a b) with h | h
    · rcases max_choice a b with hm | hm
      · exact Or.inl (by rw [List.foldl_cons, h, hm])
      · exact Or.inr (by rw [List.foldl_cons, h, hm]; exact List.mem_cons_self b t)
    · exact Or.inr (List.mem_cons_of_mem b h)

theorem qMax?_ge {l : List ℚ} {m x : ℚ} (hm : qMax? l = some m) (hx : x ∈ l) :
    x ≤ m := by
  cases l with
  | nil => simp [qMax?] at hm
  | cons a t =>
    obtain rfl : t.foldl max a = m := Option.some.inj hm
    rcases List.mem_cons.mp hx with rfl | hx
    · exact foldl_max_init_le t x
    · exact foldl_max_mem_le a hx

theorem qMax?_mem {l : List ℚ} {m : ℚ} (hm : qMax? l = some m) : m ∈ l := by
  cases l with
  | nil => simp [qMax?] at hm
  | cons a t =>
    obtain rfl : t.foldl max a = m := Option.some.inj hm
    rcases foldl_max_mem t a with h | h
    · rw [h]; exact List.mem_cons_self a t
    · exact List.mem_cons_of_mem a h

theorem qMax?_of_ne_nil {l : List ℚ} (h : l ≠ []) : ∃ m, qMax? l = some m := by
  cases l with
  | nil => exact absurd rfl h
  | cons a t => exact ⟨t.foldl max a, rfl⟩

/-! ### Helper lemmas: the filter chain -/

theorem runStep_of_pred {df : DataFrame} {fs : FilterState} {s : FilterStep}
    {p : Row → Bool} (cur : List Row) (h : stepPred df fs s = Except.ok p) :
    runStep df fs cur s = Except.ok (cur.filter p) := by
  rw [runStep, h]

theorem runStep_of_error {df : DataFrame} {fs : FilterState} {s : FilterStep}
    {e : String} (cur : List Row) (h : stepPred df fs s = Except.error e) :
    runStep df fs cur s = Except.error e := by
  rw [runStep, h]

theorem runStep_ok_elim {df : DataFrame} {fs : FilterState} {s : FilterStep}
    {cur cur2 : List Row} (h : runStep df fs cur s = Except.ok cur2) :
    ∃ p, stepPred df fs s = Except.ok p ∧ cur2 = cur.filter p := by
  rw [runStep] at h
  cases hp : stepPred df fs s with
  | error e => rw [hp] at h; cases h
  | ok p => rw [hp] at h; exact ⟨p, rfl, (Except.ok.inj h).symm⟩

theorem runSteps_cons_ok {df : DataFrame} {fs : FilterState} {s : FilterStep}
    {p : Row → Bool} (cur : List Row) (t : List FilterStep)
    (h : stepPred df fs s = Except.ok p) :
    runSteps df fs cur (s :: t) = runSteps df fs (cur.filter p) t := by
  show (match runStep df fs cur s with
    | Except.error e => Except.error e
    | Except.ok cur2 => runSteps df fs cur2 t) = _
  rw [runStep_of_pred cur h]

theorem runSteps_cons_error {df : DataFrame} {fs : FilterState} {s : FilterStep}
    {e : String} (cur : List Row) (t : List FilterStep)
    (h : stepPred df fs s = Except.error e) :
    runSteps df fs cur (s :: t) = Except.error e := by
  show (match runStep df fs cur s with
    | Except.error e => Except.error e
    | Except.ok cur2 => runSteps df fs cur2 t) = _
  rw [runStep_of_error cur h]

theorem runSteps_sublist {df : DataFrame} {fs : FilterState} :
    ∀ {l : List FilterStep} {cur r : List Row},
      runSteps df fs cur l = Except.ok r → r.Sublist cur := by
  intro l
  induction l with
  | nil =>
    intro cur r h
    obtain rfl : cur = r := Except.ok.inj h
    exact List.Sublist.refl cur
  | cons s t ih =>
    intro cur r h
    cases hs : stepPred df fs s with
    | error e => rw [runSteps_cons_error cur t hs] at h; cases h
    | ok p =>
      rw [runSteps_cons_ok cur t hs] at h
      exact (ih h).trans (List.filter_sublist cur)

/-- A filter block either raises — independently of the accumulated rows —
or filters by a row predicate; raising depends only on the dataset and the
widget state. -/
theorem runSteps_perm (df : DataFrame) (fs : FilterState) {l₁ l₂ : List FilterStep}
    (hp : l₁.Perm l₂) :
    ∀ cur r, runSteps df fs cur l₁ = Except.ok r → runSteps df fs cur l₂ = Except.ok r := by
  induction hp with
  | nil => exact fun cur r h => h
  | cons s _ ih =>
    intro cur r h
    cases hs : stepPred df fs s with
    | error e => rw [runSteps_cons_error cur _ hs] at h; cases h
    | ok p =>
      rw [runSteps_cons_ok cur _ hs] at h ⊢
      exact ih _ r h
  | swap x y l =>
    intro cur r h
    cases hy : stepPred df fs y with
    | error e => rw [runSteps_cons_error cur _ hy] at h; cases h
    | ok py =>
      rw [runSteps_cons_ok cur _ hy] at h
      cases hx : stepPred df fs x with
      | error e => rw [runSteps_cons_error _ _ hx] at h; cases h
      | ok px =>
        rw [runSteps_cons_ok _ _ hx] at h
        rw [runSteps_cons_ok cur _ hx, runSteps_cons_ok _ _ hy, List.filter_comm]
        exact h
  | trans _ _ ih₁ ih₂ => exact fun cur r h => ih₂ cur r (ih₁ cur r h)

theorem filter_of_all_true {p : Row → Bool} {l : List Row}
    (h : ∀ r ∈ l, p r = true) : l.filter p = l :=
  List.filter_eq_self.mpr h

/-- When a block's guard column is absent, its predicate is trivially true. -/
theorem stepPred_guard_absent (df : DataFrame) (fs : FilterState) (s : FilterStep)
    (h : guardCol s ∉ df.cols) : stepPred df fs s = Except.ok fun _ => true := by
  cases s <;>
    · have hn := colIdx?_eq_none h
      simp only [guardCol] at hn
      simp [stepPred, hn]

/-! ### Claim theorems: filter semantics -/

/-- C1: the position-style range filter keeps a row iff
`start_bound <= variant_start` and `variant_end <= end_bound` — containment
of the row interval inside the queried bound, not overlap; in particular a
row with variant_start 100 and variant_end 200 passes the bound pair
(50, 250) and fails (150, 250). -/
theorem posFilter_containment (df : DataFrame) (fs : FilterState) (cur : List Row)
    (i j : Nat) (m M : ℚ)
    (hidx : colIdx? df "variant_start" = some i)
    (hmin : qMin? (colNums df "variant_start") = some m)
    (hjdx : colIdx? df "variant_end" = some j)
    (hmax : qMax? (colNums df "variant_end") = some M) :
    runStep df fs cur FilterStep.posStep =
      Except.ok (cur.filter fun r =>
        posPass fs.posRange.1 fs.posRange.2 (cellAt i r) (cellAt j r))
    ∧ (∀ (lo hb : Int) (a b : ℚ),
        posPass lo hb (Value.num a) (Value.num b) = true ↔
          ((lo : ℚ) ≤ a ∧ b ≤ (hb : ℚ)))
    ∧ posPass 50 250 (Value.num 100) (Value.num 200) = true
    ∧ posPass 150 250 (Value.num 100) (Value.num 200) = false := by
  refine ⟨?_, ?_, by decide, by decide⟩
  · have hp : stepPred df fs FilterStep.posStep = Except.ok fun r =>
        posPass fs.posRange.1 fs.posRange.2 (cellAt i r) (cellAt j r) := by
      simp [stepPred, hidx, hmin, hjdx, hmax]
    exact runStep_of_pred cur hp
  · intro lo hb a b
    simp [posPass, geIntB, leIntB]

theorem posFilter_containment_w :
    runStep posExampleDf { unsetFS with posRange := (50, 250) } posExampleDf.rows
      FilterStep.posStep =
      Except.ok (posExampleDf.rows.filter fun r =>
        posPass 50 250 (cellAt 0 r) (cellAt 1 r)) :=
  (posFilter_containment posExampleDf { unsetFS with posRange := (50, 250) }
    posExampleDf.rows 0 1 100 200 (by decide) (by decide) (by decide) (by decide)).1

/-- C2 (amended): a filter block is a no-op — input rows unchanged, no
exception — whenever its guard column (`chr`, `variant_start`, `ScoreChange`,
`is_clinically_significant`, `transcription_factor`, `gwas_url`, `dbsnp_id`)
is absent from the schema. -/
theorem filter_noop_guard_absent (df : DataFrame) (fs : FilterState)
    (cur : List Row) (s : FilterStep) (h : guardCol s ∉ df.cols) :
    runStep df fs cur s = Except.ok cur := by
  rw [runStep_of_pred cur (stepPred_guard_absent df fs s h), List.filter_true]

theorem filter_noop_guard_absent_w :
    runStep emptyScoreDf unsetFS emptyScoreDf.rows FilterStep.chrStep =
      Except.ok emptyScoreDf.rows :=
  filter_noop_guard_absent emptyScoreDf unsetFS emptyScoreDf.rows
    FilterStep.chrStep (by decide)

/-- C2 counterexample: with `gwas_url` present but `clinvar_url` absent, the
checked ClinVar presence filter raises KeyError instead of no-opping; with
`variant_start` present but `variant_end` absent, the position block raises
KeyError even though every filter is unset. -/
theorem filter_missing_column_raises :
    browseFilter gwasOnlyDf { unsetFS with clinvarCheck := true } =
      Except.error "KeyError: clinvar_url"
    ∧ browseFilter gwasOnlyDf { unsetFS with clinvarCheck := true } ≠
        Except.ok gwasOnlyDf.rows
    ∧ browseFilter startOnlyDf unsetFS = Except.error "KeyError: variant_end"
    ∧ browseFilter startOnlyDf unsetFS ≠ Except.ok startOnlyDf.rows :=
  ⟨by decide, by decide, by decide, by decide⟩

/-- C5: every successful filter result is a sublist of the source rows — no
row fabrication, original relative order kept — and on the 3-row
chr1/chr2/chr1 dataset the chromosome=chr1 filter returns exactly the first
and third rows, in that order. -/
theorem filter_subset_order :
    (∀ (df : DataFrame) (fs : FilterState) (r : List Row),
        browseFilter df fs = Except.ok r → r.Sublist df.rows)
    ∧ browseFilter chrExampleDf { unsetFS with chromosome := "chr1" } =
        Except.ok [[Value.str "chr1", Value.str "r1"],
                   [Value.str "chr1", Value.str "r3"]] :=
  ⟨fun _ _ _ h => runSteps_sublist h, by decide⟩

theorem filter_subset_order_w :
    ([[Value.str "chr1", Value.str "r1"],
      [Value.str "chr1", Value.str "r3"]] : List Row).Sublist chrExampleDf.rows :=
  filter_subset_order.1 chrExampleDf { unsetFS with chromosome := "chr1" } _
    filter_subset_order.2

/-- C7: applying the filter blocks in any order yields the same successful
filtered result — the conjunctive filters commute. -/
theorem filter_order_irrelevant (df : DataFrame) (fs : FilterState)
    (l₁ l₂ : List FilterStep) (r : List Row) (hperm : l₁.Perm l₂)
    (h : runSteps df fs df.rows l₁ = Except.ok r) :
    runSteps df fs df.rows l₂ = Except.ok r :=
  runSteps_perm df fs hperm df.rows r h

theorem filter_order_irrelevant_w :
    runSteps permExampleDf permExampleFS permExampleDf.rows
      [FilterStep.scoreStep, FilterStep.chrStep] =
      Except.ok [[Value.str "chr1", Value.num 1]] :=
  filter_order_irrelevant permExampleDf permExampleFS
    [FilterStep.chrStep, FilterStep.scoreStep]
    [FilterStep.scoreStep, FilterStep.chrStep]
    [[Value.str "chr1", Value.num 1]] (by decide) (by decide)

/-- C10: a Browse interaction returns the session store unchanged — the
filter chain works on a copy and never assigns into the store — and its
filtered rows all come from the stored dataset. -/
theorem browsePage_frame (store : Store) (name : String) (fs : FilterState) :
    (browsePage store name fs).2 = store
    ∧ ∀ (df : DataFrame) (r : List Row), store.lookup name = some df →
        (browsePage store name fs).1 = Except.ok r → r.Sublist df.rows := by
  cases h : store.lookup name with
  | none =>
    exact ⟨by simp [browsePage, h], fun df r hdf => by cases hdf⟩
  | some df0 =>
    refine ⟨by simp [browsePage, h], fun df r hdf hr => ?_⟩
    obtain rfl : df0 = df := Option.some.inj hdf
    simp only [browsePage, h] at hr
    exact runSteps_sublist hr

/-! ### Claim C6: the empty filter set -/

theorem exists_int_of_isIntNum {v : Value} (h : isIntNum v = true) :
    ∃ n : ℤ, v = Value.num (n : ℚ) := by
  cases v with
  | num q =>
    have hden : q.den = 1 := by simpa [isIntNum] using h
    refine ⟨q.num, ?_⟩
    have hq : (q.num : ℚ) = q := by
      rw [← Rat.num_div_den q, hden]
      norm_num
    rw [hq]
  | str s => simp [isIntNum] at h
  | null => simp [isIntNum] at h

theorem exists_num_of_isSome {v : Value} (h : (numOf v).isSome = true) :
    ∃ q : ℚ, v = Value.num q := by
  cases v with
  | num q => exact ⟨q, rfl⟩
  | str s => simp [numOf] at h
  | null => simp [numOf] at h

theorem pyInt_intCast (n : ℤ) : pyInt ((n : ℚ)) = n := by
  rw [pyInt]
  split
  · exact Int.floor_intCast n
  · exact Int.ceil_intCast n

theorem mem_colNums_of_cell {df : DataFrame} {c : String} {i : Nat}
    (hidx : colIdx? df c = some i) {r : Row} (hr : r ∈ df.rows) {q : ℚ}
    (hcell : cellAt i r = Value.num q) : q ∈ colNums df c := by
  rw [colNums, colVals_of_some hidx]
  exact List.mem_filterMap.mpr
    ⟨cellAt i r, List.mem_map_of_mem (cellAt i) hr, by rw [hcell]; rfl⟩

theorem colNums_ne_nil {df : DataFrame} {c : String} {i : Nat}
    (hidx : colIdx? df c = some i) (hne : df.rows ≠ [])
    (hall : ∀ v ∈ colVals df c, ∃ q : ℚ, v = Value.num q) :
    colNums df c ≠ [] := by
  obtain ⟨r₀, hr₀⟩ := List.exists_mem_of_ne_nil df.rows hne
  have hv : cellAt i r₀ ∈ colVals df c := by
    rw [colVals_of_some hidx]
    exact List.mem_map_of_mem (cellAt i) hr₀
  obtain ⟨q, hq⟩ := hall _ hv
  exact List.ne_nil_of_mem (mem_colNums_of_cell hidx hr₀ hq)

theorem colNums_int {df : DataFrame} {c : String} {i : Nat}
    (_hidx : colIdx? df c = some i)
    (hint : ∀ v ∈ colVals df c, isIntNum v = true) :
    ∀ q ∈ colNums df c, ∃ n : ℤ, q = (n : ℚ) := by
  intro q hq
  rw [colNums] at hq
  obtain ⟨v, hv, hnum⟩ := List.mem_filterMap.mp hq
  obtain ⟨n, rfl⟩ := exists_int_of_isIntNum (hint v hv)
  exact ⟨n, (Option.some.inj hnum).symm⟩

theorem runSteps_cons_of_noop {df : DataFrame} {fs : FilterState} {s : FilterStep}
    {cur : List Row} (t : List FilterStep) (h : runStep df fs cur s = Except.ok cur) :
    runSteps df fs cur (s :: t) = runSteps df fs cur t := by
  show (match runStep df fs cur s with
    | Except.error e => Except.error e
    | Except.ok cur2 => runSteps df fs cur2 t) = _
  rw [h]

theorem runStep_of_true_pred {df : DataFrame} {fs : FilterState} {s : FilterStep}
    (cur : List Row) (h : stepPred df fs s = Except.ok fun _ => true) :
    runStep df fs cur s = Except.ok cur := by
  rw [runStep_of_pred cur h, List.filter_true]

/-- C6 (amended): with every filter unset — selectors on "All", checkboxes
off, empty search box, sliders at their computed full default bounds — the
chain returns the dataset unchanged, provided the numeric filter columns are
benign: when `variant_start` exists, `variant_end` also exists, both columns
hold only integer-valued numbers and the dataset is nonempty (otherwise the
block raises); when `ScoreChange` exists it holds only non-missing numbers
(a NaN row would be dropped even at default bounds). -/
theorem browse_default_identity (df : DataFrame)
    (hpos : "variant_start" ∈ df.cols →
      "variant_end" ∈ df.cols ∧ df.rows ≠ [] ∧
      (∀ v ∈ colVals df "variant_start", isIntNum v = true) ∧
      (∀ v ∈ colVals df "variant_end", isIntNum v = true))
    (hscore : "ScoreChange" ∈ df.cols →
      ∀ v ∈ colVals df "ScoreChange", (numOf v).isSome = true) :
    browseFilter df (defaultFS df) = Except.ok df.rows := by
  have hchr : runStep df (defaultFS df) df.rows FilterStep.chrStep = Except.ok df.rows := by
    cases hc : colIdx? df "chr" with
    | none => exact runStep_of_true_pred _ (by simp [stepPred, hc])
    | some i => exact runStep_of_true_pred _ (by simp [stepPred, hc, defaultFS])
  have hclin : runStep df (defaultFS df) df.rows FilterStep.clinStep = Except.ok df.rows := by
    cases hc : colIdx? df "is_clinically_significant" with
    | none => exact runStep_of_true_pred _ (by simp [stepPred, hc])
    | some i => exact runStep_of_true_pred _ (by simp [stepPred, hc, defaultFS])
  have htf : runStep df (defaultFS df) df.rows FilterStep.tfStep = Except.ok df.rows := by
    cases hc : colIdx? df "transcription_factor" with
    | none => exact runStep_of_true_pred _ (by simp [stepPred, hc])
    | some i => exact runStep_of_true_pred _ (by simp [stepPred, hc, defaultFS])
  have hlinks : runStep df (defaultFS df) df.rows FilterStep.linksStep = Except.ok df.rows := by
    cases hc : colIdx? df "gwas_url" with
    | none => exact runStep_of_true_pred _ (by simp [stepPred, hc])
    | some i => exact runStep_of_true_pred _ (by simp [stepPred, hc, defaultFS])
  have hsearch : runStep df (defaultFS df) df.rows FilterStep.searchStep = Except.ok df.rows := by
    cases hc : colIdx? df "dbsnp_id" with
    | none => exact runStep_of_true_pred _ (by simp [stepPred, hc])
    | some i => exact runStep_of_true_pred _ (by simp [stepPred, hc, defaultFS])
  have hscoreStep : runStep df (defaultFS df) df.rows FilterStep.scoreStep =
      Except.ok df.rows := by
    cases hc : colIdx? df "ScoreChange" with
    | none => exact runStep_of_true_pred _ (by simp [stepPred, hc])
    | some i =>
      have hall := hscore (mem_of_colIdx?_some hc)
      have hpred : stepPred df (defaultFS df) FilterStep.scoreStep = Except.ok fun r =>
          geOptB (cellAt i r) (defaultFS df).scoreRange.1 &&
            leOptB (cellAt i r) (defaultFS df).scoreRange.2 := by
        simp [stepPred, hc]
      rw [runStep_of_pred _ hpred]
      refine congrArg Except.ok (filter_of_all_true ?_)
      intro r hr
      have hv : cellAt i r ∈ colVals df "ScoreChange" := by
        rw [colVals_of_some hc]
        exact List.mem_map_of_mem (cellAt i) hr
      obtain ⟨q, hq⟩ := exists_num_of_isSome (hall _ hv)
      have hqm : q ∈ colNums df "ScoreChange" := mem_colNums_of_cell hc hr hq
      obtain ⟨m, hm⟩ := qMin?_of_ne_nil (List.ne_nil_of_mem hqm)
      obtain ⟨M, hM⟩ := qMax?_of_ne_nil (List.ne_nil_of_mem hqm)
      simp only [defaultFS, hm, hM, hq, geOptB, leOptB, Bool.and_eq_true,
        decide_eq_true_eq]
      exact ⟨qMin?_le hm hqm, qMax?_ge hM hqm⟩
  have hposStep : runStep df (defaultFS df) df.rows FilterStep.posStep =
      Except.ok df.rows := by
    cases hp : colIdx? df "variant_start" with
    | none => exact runStep_of_true_pred _ (by simp [stepPred, hp])
    | some i =>
      obtain ⟨hve, hne, hints, hinte⟩ := hpos (mem_of_colIdx?_some hp)
      obtain ⟨j, hj⟩ := colIdx?_mem hve
      have hnum_s : ∀ v ∈ colVals df "variant_start", ∃ q : ℚ, v = Value.num q :=
        fun v hv => (exists_int_of_isIntNum (hints v hv)).elim fun n hn => ⟨(n : ℚ), hn⟩
      have hnum_e : ∀ v ∈ colVals df "variant_end", ∃ q : ℚ, v = Value.num q :=
        fun v hv => (exists_int_of_isIntNum (hinte v hv)).elim fun n hn => ⟨(n : ℚ), hn⟩
      obtain ⟨m, hm⟩ := qMin?_of_ne_nil (colNums_ne_nil hp hne hnum_s)
      obtain ⟨M, hM⟩ := qMax?_of_ne_nil (colNums_ne_nil hj hne hnum_e)
      have hpred : stepPred df (defaultFS df) FilterStep.posStep = Except.ok fun r =>
          posPass (defaultFS df).posRange.1 (defaultFS df).posRange.2
            (cellAt i r) (cellAt j r) := by
        simp [stepPred, hp, hm, hj, hM]
      rw [runStep_of_pred _ hpred]
      refine congrArg Except.ok (filter_of_all_true ?_)
      intro r hr
      have hsv : cellAt i r ∈ colVals df "variant_start" := by
        rw [colVals_of_some hp]
        exact List.mem_map_of_mem (cellAt i) hr
      have hev : cellAt j r ∈ colVals df "variant_end" := by
        rw [colVals_of_some hj]
        exact List.mem_map_of_mem (cellAt j) hr
      obtain ⟨na, hna⟩ := exists_int_of_isIntNum (hints _ hsv)
      obtain ⟨nb, hnb⟩ := exists_int_of_isIntNum (hinte _ hev)
      have hqa : ((na : ℤ) : ℚ) ∈ colNums df "variant_start" :=
        mem_colNums_of_cell hp hr hna
      have hqb : ((nb : ℤ) : ℚ) ∈ colNums df "variant_end" :=
        mem_colNums_of_cell hj hr hnb
      obtain ⟨nm, hnm⟩ := colNums_int hp hints _ (qMin?_mem hm)
      obtain ⟨nM, hnM⟩ := colNums_int hj hinte _ (qMax?_mem hM)
      have hdr : (defaultFS df).posRange = (pyInt m, pyInt M) := by
        simp [defaultFS, defaultPosRange, hm, hM]
      simp only [hdr, posPass, geIntB, leIntB, hna, hnb, Bool.and_eq_true,
        decide_eq_true_eq]
      constructor
      · rw [hnm, pyInt_intCast, ← hnm]
        exact qMin?_le hm hqa
      · rw [hnM, pyInt_intCast, ← hnM]
        exact qMax?_ge hM hqb
  show runSteps df (defaultFS df) df.rows allSteps = Except.ok df.rows
  rw [allSteps, runSteps_cons_of_noop _ hchr, runSteps_cons_of_noop _ hposStep,
    runSteps_cons_of_noop _ hscoreStep, runSteps_cons_of_noop _ hclin,
    runSteps_cons_of_noop _ htf, runSteps_cons_of_noop _ hlinks,
    runSteps_cons_of_noop _ hsearch]
  rfl

theorem browse_default_identity_w :
    browseFilter cleanDf (defaultFS cleanDf) = Except.ok cleanDf.rows :=
  browse_default_identity cleanDf (by decide) (by decide)

/-- C6 counterexample: on a dataset whose ScoreChange column holds a missing
value, the all-unset default state drops the NaN row — NaN comparisons with
the default slider bounds are False — so the full dataset is not returned. -/
theorem browse_default_not_identity :
    browseFilter nullScoreDf (defaultFS nullScoreDf) = Except.ok [[Value.num 1]]
    ∧ browseFilter nullScoreDf (defaultFS nullScoreDf) ≠ Except.ok nullScoreDf.rows :=
  ⟨by decide, by decide⟩

theorem browsePage_frame_w :
    (browsePage exampleStore "Enhancer GOF" { unsetFS with chromosome := "chr1" }).2 =
      exampleStore
    ∧ ([[Value.str "chr1", Value.str "r1"],
        [Value.str "chr1", Value.str "r3"]] : List Row).Sublist chrExampleDf.rows :=
  ⟨(browsePage_frame exampleStore "Enhancer GOF"
      { unsetFS with chromosome := "chr1" }).1,
   (browsePage_frame exampleStore "Enhancer GOF"
      { unsetFS with chromosome := "chr1" }).2 chrExampleDf _ (by decide) (by decide)⟩

/-! ### Claims C3 and C4: the cross-dataset summary -/

/-- C3 (amended): the mean/min/max summary of `ScoreChange` is simply
omitted (no numeric error is raised) when the column is absent; but when the
column is present with zero qualifying rows the loop interpolates the pandas
NaN into the formatted output — the "nan" string — instead of a "not
applicable" placeholder. -/
theorem summary_empty_scorechange :
    (∀ (name : String) (df : DataFrame), "ScoreChange" ∈ df.cols →
        colNums df "ScoreChange" = [] →
        List.lookup "Avg Score Change" (summaryRow name df) =
            some (Cell.fmtMean none) ∧
          List.lookup "Score Range" (summaryRow name df) =
            some (Cell.fmtRange none none))
    ∧ (∀ (name : String) (df : DataFrame), "ScoreChange" ∉ df.cols →
        List.lookup "Avg Score Change" (summaryRow name df) = none ∧
          List.lookup "Score Range" (summaryRow name df) = none) := by
  constructor
  · intro name df hmem hnil
    rw [summaryRow, if_pos hmem, hnil]
    by_cases hclin : "is_clinically_significant" ∈ df.cols <;>
      simp [hclin, List.lookup, qMean?, qMin?, qMax?]
  · intro name df hmem
    rw [summaryRow, if_neg hmem]
    by_cases hclin : "is_clinically_significant" ∈ df.cols <;>
      simp [hclin, List.lookup]

theorem summary_empty_scorechange_w :
    List.lookup "Avg Score Change" (summaryRow "X" emptyScoreDf) =
        some (Cell.fmtMean none)
    ∧ List.lookup "Avg Score Change" (summaryRow "A" chrOnlyDf) = none :=
  ⟨(summary_empty_scorechange.1 "X" emptyScoreDf (by decide) (by decide)).1,
   (summary_empty_scorechange.2 "A" chrOnlyDf (by decide)).1⟩

/-- C3 counterexample: on a zero-row dataset whose schema has `ScoreChange`,
the summary cell is the formatted NaN, not an explicit "N/A" — the NaN of
the empty mean propagates into the output. -/
theorem summary_empty_scorechange_nan :
    List.lookup "Avg Score Change" (summaryRow "X" emptyScoreDf) =
        some (Cell.fmtMean none)
    ∧ some (Cell.fmtMean none) ≠ some (Cell.strC "N/A") :=
  ⟨by decide, by decide⟩

/-- C4 (amended): the comparison builds exactly one row per dataset and
never raises on heterogeneous schemas, but only the `Chromosomes` statistic
falls back to the "N/A" placeholder; the `ScoreChange` and clinical
statistics are omitted from the row when their column is absent (the
assembled table shows a missing value there, not "N/A"). -/
theorem summary_one_row_per_dataset :
    (∀ ds : Store, (summaryRows ds).length = ds.length)
    ∧ (∀ (name : String) (df : DataFrame), "chr" ∉ df.cols →
        List.lookup "Chromosomes" (summaryRow name df) = some (Cell.strC "N/A"))
    ∧ (∀ (name : String) (df : DataFrame), "ScoreChange" ∉ df.cols →
        List.lookup "Avg Score Change" (summaryRow name df) = none)
    ∧ (∀ (name : String) (df : DataFrame), "is_clinically_significant" ∉ df.cols →
        List.lookup "Clinical Sig" (summaryRow name df) = none) := by
  refine ⟨fun ds => List.length_map ds _, ?_, ?_, ?_⟩
  · intro name df hmem
    rw [summaryRow, if_neg hmem]
    by_cases hsc : "ScoreChange" ∈ df.cols <;>
      by_cases hclin : "is_clinically_significant" ∈ df.cols <;>
        simp [hsc, hclin, List.lookup]
  · intro name df hmem
    rw [summaryRow, if_neg hmem]
    by_cases hchr : "chr" ∈ df.cols <;>
      by_cases hclin : "is_clinically_significant" ∈ df.cols <;>
        simp [hchr, hclin, List.lookup]
  · intro name df hmem
    rw [summaryRow, if_neg hmem]
    by_cases hchr : "chr" ∈ df.cols <;>
      by_cases hsc : "ScoreChange" ∈ df.cols <;>
        simp [hchr, hsc, List.lookup]

theorem summary_one_row_per_dataset_w :
    (summaryRows [("Enhancer GOF", chrOnlyDf), ("TF Enhancer LOF", emptyScoreDf)]).length = 2
    ∧ List.lookup "Chromosomes" (summaryRow "B" emptyScoreDf) = some (Cell.strC "N/A") :=
  ⟨summary_one_row_per_dataset.1 [("Enhancer GOF", chrOnlyDf), ("TF Enhancer LOF", emptyScoreDf)],
   summary_one_row_per_dataset.2.1 "B" emptyScoreDf (by decide)⟩

/-- C4 counterexample: a dataset without `ScoreChange` gets no
"Avg Score Change" entry at all in its summary row — the claimed "N/A"
placeholder appears only for the chromosome count. -/
theorem summary_missing_stat_not_na :
    List.lookup "Avg Score Change" (summaryRow "A" chrOnlyDf) = none
    ∧ (none : Option Cell) ≠ some (Cell.strC "N/A")
    ∧ List.lookup "Chromosomes" (summaryRow "A" chrOnlyDf) = some (Cell.natC 1) :=
  ⟨by decide, by decide, by decide⟩

/-! ### Claim C8: the dbSNP search -/

theorem reMatchAt_no_dot {pat : List Char} (h : '.' ∉ pat) :
    ∀ s : List Char, reMatchAt pat s = pat.isPrefixOf s := by
  induction pat with
  | nil => intro s; cases s <;> rfl
  | cons p ps ih =>
    intro s
    rw [List.mem_cons, not_or] at h
    have hp : (p == '.') = false := beq_eq_false_iff_ne.mpr fun hh => h.1 hh.symm
    cases s with
    | nil => rfl
    | cons c cs => simp [reMatchAt, List.isPrefixOf, hp, ih h.2]

theorem reSearch_eq_occursIn {pat : List Char} (h : '.' ∉ pat) :
    ∀ s : List Char, reSearch pat s = occursIn pat s := by
  intro s
  induction s with
  | nil =>
    rw [reSearch, reMatchAt_no_dot h]
    cases pat <;> simp [List.isPrefixOf, occursIn]
  | cons c cs ih => rw [reSearch, occursIn, reMatchAt_no_dot h, ih]

/-- C8 (amended): the dbSNP filter interprets the search box as a regular
expression, case-insensitively (`str.contains` keeps its regex default).
For terms free of every regex metacharacter — the domain on which the
model provably coincides with Python's matcher — it is exactly a
case-insensitive substring containment test; "RS123" matches "rs123456";
an empty search box is a no-op; rows with missing or non-string values are
excluded without raising.  Terms containing metacharacters other than `.`
are outside the embedding and this theorem says nothing about them. -/
theorem search_regex_semantics :
    (∀ term s : String, (∀ ch ∈ lowerList term.toList, isRegexMeta ch = false) →
        searchPass term s = substrContainsCI term s)
    ∧ searchPass "RS123" "rs123456" = true
    ∧ (∀ (df : DataFrame) (fs : FilterState) (cur : List Row),
        fs.searchTerm = "" → runStep df fs cur FilterStep.searchStep = Except.ok cur)
    ∧ browseFilter dbsnpDf { unsetFS with searchTerm := "RS123" } =
        Except.ok [[Value.str "rs123456"]] := by
  refine ⟨?_, by decide, ?_, by decide⟩
  · intro term s h
    have hdot : '.' ∉ lowerList term.toList := by
      intro hin
      have hm := h '.' hin
      simp [isRegexMeta] at hm
    rw [searchPass, substrContainsCI, reSearch_eq_occursIn hdot]
  · intro df fs cur h
    cases hc : colIdx? df "dbsnp_id" with
    | none => exact runStep_of_true_pred _ (by simp [stepPred, hc])
    | some i => exact runStep_of_true_pred _ (by simp [stepPred, hc, h])

theorem search_regex_semantics_w :
    searchPass "rs123" "rs123456" = substrContainsCI "rs123" "rs123456"
    ∧ runStep dbsnpDf unsetFS dbsnpDf.rows FilterStep.searchStep =
        Except.ok dbsnpDf.rows :=
  ⟨search_regex_semantics.1 "rs123" "rs123456" (by decide),
   search_regex_semantics.2.2.1 dbsnpDf unsetFS dbsnpDf.rows rfl⟩

/-- C8 counterexample: the search term acts as a regular expression — the
dot matches any character — so the term "r.123456" keeps the row whose value
"rs123456" does not literally contain it; the filter is not a pure
containment test. -/
theorem search_not_literal_containment :
    browseFilter dbsnpDf { unsetFS with searchTerm := "r.123456" } =
      Except.ok [[Value.str "rs123456"]]
    ∧ substrContainsCI "r.123456" "rs123456" = false :=
  ⟨by decide, by decide⟩

/-! ### Claim C9: export / reload round trip -/

theorem mk_toList (s : String) : String.mk s.toList = s := rfl

theorem splitOnC_of_not_mem {c : Char} {l : List Char} (h : c ∉ l) :
    splitOnC c l = [l] := by
  induction l with
  | nil => rfl
  | cons a t ih =>
    rw [List.mem_cons, not_or] at h
    have ha : ¬(a = c) := fun hh => h.1 hh.symm
    rw [splitOnC, if_neg ha, ih h.2]

theorem splitOnC_append {c : Char} {l : List Char} (h : c ∉ l) (rest : List Char) :
    splitOnC c (l ++ c :: rest) = l :: splitOnC c rest := by
  induction l with
  | nil => simp [splitOnC]
  | cons a t ih =>
    rw [List.mem_cons, not_or] at h
    have ha : ¬(a = c) := fun hh => h.1 hh.symm
    rw [List.cons_append, splitOnC, if_neg ha, ih h.2]

theorem joinWith_cons₂ (c : Char) (l l₂ : List Char) (ls : List (List Char)) :
    joinWith c (l :: l₂ :: ls) = l ++ c :: joinWith c (l₂ :: ls) := rfl

theorem joinWith_ne_nil {c : Char} {l : List Char} (ls : List (List Char))
    (h : l ≠ []) : joinWith c (l :: ls) ≠ [] := by
  cases ls with
  | nil => exact h
  | cons l₂ ls₂ => simp [joinWith_cons₂]

theorem mem_joinWith {c ch : Char} :
    ∀ {ls : List (List Char)}, ch ∈ joinWith c ls → ch = c ∨ ∃ l ∈ ls, ch ∈ l := by
  intro ls
  induction ls with
  | nil => intro h; simp [joinWith] at h
  | cons l ls ih =>
    cases ls with
    | nil => intro h; exact Or.inr ⟨l, List.mem_cons_self l [], h⟩
    | cons l₂ ls₂ =>
      intro h
      rw [joinWith_cons₂] at h
      rcases List.mem_append.mp h with h | h
      · exact Or.inr ⟨l, List.mem_cons_self l (l₂ :: ls₂), h⟩
      · rcases List.mem_cons.mp h with rfl | h
        · exact Or.inl rfl
        · rcases ih h with h | ⟨g, hg, hch⟩
          · exact Or.inl h
          · exact Or.inr ⟨g, List.mem_cons_of_mem l hg, hch⟩

theorem splitOnC_joinWith_no_trail {c : Char} :
    ∀ {ls : List (List Char)}, ls ≠ [] → (∀ l ∈ ls, c ∉ l) →
      splitOnC c (joinWith c ls) = ls := by
  intro ls
  induction ls with
  | nil => intro h; exact absurd rfl h
  | cons l ls ih =>
    intro _ hall
    cases ls with
    | nil => exact splitOnC_of_not_mem (hall l (List.mem_cons_self l []))
    | cons l₂ ls₂ =>
      rw [joinWith_cons₂, splitOnC_append (hall l (List.mem_cons_self l (l₂ :: ls₂))),
        ih (by simp) fun x hx => hall x (List.mem_cons_of_mem l hx)]

theorem splitOnC_joinWith_trail {c : Char} :
    ∀ {ls : List (List Char)}, ls ≠ [] → (∀ l ∈ ls, c ∉ l) →
      splitOnC c (joinWith c ls ++ [c]) = ls ++ [[]] := by
  intro ls
  induction ls with
  | nil => intro h; exact absurd rfl h
  | cons l ls ih =>
    intro _ hall
    cases ls with
    | nil =>
      rw [show joinWith c [l] = l from rfl,
        show l ++ [c] = l ++ c :: [] from rfl,
        splitOnC_append (hall l (List.mem_cons_self l []))]
      rfl
    | cons l₂ ls₂ =>
      rw [joinWith_cons₂, List.append_assoc, List.cons_append,
        splitOnC_append (hall l (List.mem_cons_self l (l₂ :: ls₂))),
        ih (by simp) fun x hx => hall x (List.mem_cons_of_mem l hx)]
      rfl

theorem renderFields_spec :
    ∀ {r : Row}, (∀ v ∈ r, cellSafe v = true) →
      ∃ fields, renderFields r = some fields ∧ fields.length = r.length ∧
        fields.map parseFieldC = r ∧
        ∀ f ∈ fields, ∀ ch ∈ f, isCsvSpecial ch = false := by
  intro r
  induction r with
  | nil => exact fun _ => ⟨[], rfl, rfl, rfl, by simp⟩
  | cons v t ih =>
    intro h
    obtain ⟨fields, hf, hlen, hmap, hspec⟩ :=
      ih fun x hx => h x (List.mem_cons_of_mem v hx)
    have hv := h v (List.mem_cons_self v t)
    cases hr : renderFieldC v with
    | none => rw [cellSafe, hr] at hv; cases hv
    | some f =>
      rw [cellSafe, hr, Bool.and_eq_true] at hv
      obtain ⟨hno, hparse⟩ := hv
      refine ⟨f :: fields, ?_, by simp [hlen], ?_, ?_⟩
      · rw [renderFields, hr, hf]
      · rw [List.map_cons, hmap, of_decide_eq_true hparse]
      · intro g hg ch hch
        rcases List.mem_cons.mp hg with rfl | hg
        · rw [Bool.not_eq_true'] at hno
          by_contra hcc
          have hany : g.any isCsvSpecial = true :=
            List.any_eq_true.mpr ⟨ch, hch, by simpa using hcc⟩
          rw [hany] at hno
          cases hno
        · exact hspec g hg ch hch

theorem renderLines_spec (ncols : Nat) :
    ∀ {rows : List Row},
      (∀ r ∈ rows, ∀ v ∈ r, cellSafe v = true) →
      (∀ r ∈ rows, r.length = ncols) → 0 < ncols →
      (∀ r ∈ rows, renderRowC r ≠ some []) →
      ∃ lns, renderLines rows = some lns ∧
        lns.map (fun ln => (splitOnC ',' ln).map parseFieldC) = rows ∧
        ∀ ln ∈ lns, '\n' ∉ ln ∧ ln ≠ [] := by
  intro rows
  induction rows with
  | nil => exact fun _ _ _ _ => ⟨[], rfl, rfl, by simp⟩
  | cons r t ih =>
    intro hcells hlen hpos hlines
    obtain ⟨lns, hlns, hmap, hprops⟩ :=
      ih (fun x hx => hcells x (List.mem_cons_of_mem r hx))
        (fun x hx => hlen x (List.mem_cons_of_mem r hx)) hpos
        (fun x hx => hlines x (List.mem_cons_of_mem r hx))
    obtain ⟨fields, hf, hflen, hfmap, hfspec⟩ :=
      renderFields_spec (hcells r (List.mem_cons_self r t))
    have hfne : fields ≠ [] := by
      intro hnil
      rw [hnil, hlen r (List.mem_cons_self r t)] at hflen
      simp at hflen
      omega
    have hnocomma : ∀ f ∈ fields, ',' ∉ f := by
      intro f hfm hin
      have hsp := hfspec f hfm ',' hin
      simp [isCsvSpecial] at hsp
    have hrow : renderRowC r = some (joinWith ',' fields) := by
      rw [renderRowC, hf]
      rfl
    refine ⟨joinWith ',' fields :: lns, ?_, ?_, ?_⟩
    · rw [renderLines, hrow, hlns]
    · rw [List.map_cons, hmap, splitOnC_joinWith_no_trail hfne hnocomma, hfmap]
    · intro ln hln
      rcases List.mem_cons.mp hln with rfl | hln
      · refine ⟨?_, ?_⟩
        · intro hin
          rcases mem_joinWith hin with h | ⟨f, hfm, hch⟩
          · cases h
          · have hsp := hfspec f hfm '\n' hch
            simp [isCsvSpecial] at hsp
        · intro hnil
          exact hlines r (List.mem_cons_self r t) (by rw [hrow, hnil])
      · exact hprops ln hln

theorem headerLine_spec (df : DataFrame) (hne : df.cols ≠ [])
    (hsafe : ∀ c ∈ df.cols, headerSafe c = true) :
    (splitOnC ',' (headerLineC df)).map String.mk = df.cols
    ∧ '\n' ∉ headerLineC df ∧ headerLineC df ≠ [] := by
  have hmapne : df.cols.map String.toList ≠ [] := by
    intro h
    exact hne (List.map_eq_nil_iff.mp h)
  have hnospec : ∀ l ∈ df.cols.map String.toList, ∀ ch ∈ l, isCsvSpecial ch = false := by
    intro l hl ch hch
    obtain ⟨c, hc, rfl⟩ := List.mem_map.mp hl
    have hs2 := hsafe c hc
    rw [headerSafe, Bool.and_eq_true] at hs2
    have h2 := hs2.2
    rw [Bool.not_eq_true'] at h2
    by_contra hcc
    have hany : c.toList.any isCsvSpecial = true :=
      List.any_eq_true.mpr ⟨ch, hch, by simpa using hcc⟩
    rw [hany] at h2
    cases h2
  have hnocomma : ∀ l ∈ df.cols.map String.toList, ',' ∉ l := by
    intro l hl hin
    have hsp := hnospec l hl ',' hin
    simp [isCsvSpecial] at hsp
  refine ⟨?_, ?_, ?_⟩
  · rw [headerLineC, splitOnC_joinWith_no_trail hmapne hnocomma, List.map_map]
    have hid : (String.mk ∘ String.toList) = id := by
      funext s
      exact mk_toList s
    rw [hid, List.map_id]
  · intro hin
    rcases mem_joinWith hin with h | ⟨l, hl, hch⟩
    · cases h
    · have hsp := hnospec l hl '\n' hch
      simp [isCsvSpecial] at hsp
  · cases hc : df.cols with
    | nil => exact absurd hc hne
    | cons c₀ rest =>
      have hm : c₀ ∈ df.cols := by
        rw [hc]
        exact List.mem_cons_self c₀ rest
      have hs1 := hsafe c₀ hm
      rw [headerSafe, Bool.and_eq_true] at hs1
      have h1 := hs1.1
      have h0 : c₀.toList ≠ [] := by
        rw [Bool.not_eq_true'] at h1
        intro hnil
        rw [hnil] at h1
        cases h1
      rw [headerLineC, hc, List.map_cons]
      exact joinWith_ne_nil _ h0

/-- C9 (amended): exporting and reloading reproduces the table — same
values, same column order — whenever the header names are nonempty and
delimiter-free, rows are rectangular, every cell survives field inference
(numbers, missing values, and strings that do not look numeric or like an
NA token and carry no delimiter), and no data line renders empty; and an
empty filtered set exports as a header-only file.  The companion
counterexample shows the cell condition is necessary: reloading type-infers
numeric-looking strings into numbers. -/
theorem csv_roundTrip (df : DataFrame)
    (hcols : df.cols ≠ [])
    (hsafe : ∀ c ∈ df.cols, headerSafe c = true)
    (hlen : ∀ r ∈ df.rows, r.length = df.cols.length)
    (hcells : ∀ r ∈ df.rows, ∀ v ∈ r, cellSafe v = true)
    (hlines : ∀ r ∈ df.rows, renderRowC r ≠ some []) :
    (toCsvText df).bind fromCsvText = some df
    ∧ (df.rows = [] → toCsvText df = some (headerLineC df ++ ['\n'])) := by
  have hpos : 0 < df.cols.length := List.length_pos.mpr hcols
  obtain ⟨lns, hlns, hmap, hprops⟩ :=
    renderLines_spec df.cols.length hcells hlen hpos hlines
  obtain ⟨hhdr, hhnl, hhne⟩ := headerLine_spec df hcols hsafe
  have htext : toCsvText df =
      some (joinWith '\n' (headerLineC df :: lns) ++ ['\n']) := by
    rw [toCsvText, hlns]
    rfl
  constructor
  · rw [htext, Option.some_bind]
    have hnl : ∀ l ∈ headerLineC df :: lns, '\n' ∉ l := by
      intro l hl
      rcases List.mem_cons.mp hl with rfl | hl
      · exact hhnl
      · exact (hprops l hl).1
    have hsplit : splitOnC '\n' (joinWith '\n' (headerLineC df :: lns) ++ ['\n']) =
        (headerLineC df :: lns) ++ [[]] :=
      splitOnC_joinWith_trail (by simp) hnl
    have hfilter : (((headerLineC df :: lns) ++ [[]]).filter (· ≠ [])) =
        headerLineC df :: lns := by
      rw [List.filter_append]
      have h1 : (headerLineC df :: lns).filter (· ≠ []) = headerLineC df :: lns :=
        List.filter_eq_self.mpr (by
          intro a ha
          rcases List.mem_cons.mp ha with rfl | ha
          · simpa using hhne
          · simpa using (hprops a ha).2)
      have h2 : ([([] : List Char)]).filter (· ≠ []) = [] := by simp
      rw [h1, h2, List.append_nil]
    simp only [fromCsvText, hsplit, hfilter]
    rw [hhdr, hmap]
  · intro hrows
    rw [toCsvText, hrows]
    rfl

theorem csv_roundTrip_w :
    (toCsvText roundTripDf).bind fromCsvText = some roundTripDf :=
  (csv_roundTrip roundTripDf (by decide) (by decide) (by decide) (by decide)
    (by decide)).1

/-- C9 counterexample: reloading type-infers every field, so the string cell
"7" comes back as the number 7 — the reloaded row set differs from the
exported one. -/
theorem csv_roundTrip_type_inference :
    (toCsvText strSevenDf).bind fromCsvText =
      some { cols := ["c"], rows := [[Value.num 7]] }
    ∧ (toCsvText strSevenDf).bind fromCsvText ≠ some strSevenDf :=
  ⟨by decide, by decide⟩

end EnhancerDB
